import Mathlib

/-!
Verification development for the samdma21 "memputer" firmware
(file `firmware/dmainstrs.c`): the lookup-table builders and the DMA
descriptor-chain compiler for 8-bit addition, embedded as pure Lean
functions over a byte-addressed memory `Nat → Nat`.
-/

/-- Byte-addressed memory: an address maps to the byte stored there.
Writes keep values below 256; reads of `uint8_t` objects are taken mod 256. -/
abbrev Mem := Nat → Nat

/-- Memory in which every byte reads as zero; used for concrete instances. -/
def zeroMem : Mem := fun _ => 0

/-! ## Table-entry functions

For each table builder in `dmainstrs.c`, the value its loop body stores at
index `i` (`base[i] = ...`), translated literally from the C expression. -/

/-- Loop body of `setup_low_nybble_to_low_nybble`: `base[count] = (count << 0) & 0x0f`. -/
def low_nybble_to_low_nybble_entry (i : Nat) : Nat := (i <<< 0) &&& 0x0f

/-- Loop body of `setup_low_nybble_to_high_nybble`: `base[count] = (count << 4) & 0xf0`. -/
def low_nybble_to_high_nybble_entry (i : Nat) : Nat := (i <<< 4) &&& 0xf0

/-- Loop body of `setup_high_nybble_to_high_nybble`: `base[count] = (count << 0) & 0xf0`. -/
def high_nybble_to_high_nybble_entry (i : Nat) : Nat := (i <<< 0) &&& 0xf0

/-- Loop body of `setup_high_nybble_to_low_nybble`: `base[count] = (count >> 4) & 0x0f`. -/
def high_nybble_to_low_nybble_entry (i : Nat) : Nat := (i >>> 4) &&& 0x0f

/-- Loop body of the first `setup_nybble_add_no_carryin` (line 125, the sum table):
`base[count] = (((count >> 4) & 0x0f) + (count & 0x0f)) & 0x0f`. -/
def nybble_add_no_carryin_sum_entry (i : Nat) : Nat :=
  (((i >>> 4) &&& 0x0f) + (i &&& 0x0f)) &&& 0x0f

/-- Loop body of the first `setup_nybble_add_with_carryin` (line 136, the sum table):
`base[count] = (((count >> 4) & 0x0f) + (count & 0x0f) + 1) & 0x0f`. -/
def nybble_add_with_carryin_sum_entry (i : Nat) : Nat :=
  (((i >>> 4) &&& 0x0f) + (i &&& 0x0f) + 1) &&& 0x0f

/-- Loop body of the second `setup_nybble_add_no_carryin` (line 146, the carry-out
table; the source reuses the sum builder's name for it):
`base[count] = ((((count >> 4) & 0x0f) + (count & 0x0f)) & 0x10) >> 4`. -/
def nybble_add_no_carryin_carry_entry (i : Nat) : Nat :=
  ((((i >>> 4) &&& 0x0f) + (i &&& 0x0f)) &&& 0x10) >>> 4

/-- Loop body of the second `setup_nybble_add_with_carryin` (line 156, the carry-out
table; the source reuses the sum builder's name for it):
`base[count] = ((((count >> 4) & 0x0f) + (count & 0x0f) + 1) & 0x10) >> 4`. -/
def nybble_add_with_carryin_carry_entry (i : Nat) : Nat :=
  ((((i >>> 4) &&& 0x0f) + (i &&& 0x0f) + 1) &&& 0x10) >>> 4

/-- Loop body of `setup_nybble_compare_equal`:
`base[count] = ((count & 0x0f) == ((count >> 4) & 0x0f)) ? a : b`
(`a` and `b` are `uint8_t` parameters, hence reduced mod 256). -/
def nybble_compare_equal_entry (a b i : Nat) : Nat :=
  if (i &&& 0x0f) = ((i >>> 4) &&& 0x0f) then a % 256 else b % 256

/-! ## The 8-bit-counter loop

All the 1x256 builders share the loop shape
`for (uint8_t count = 0; count < 256; count++) { base[count] = f(count); }`.
The counter is 8 bits wide, so after `n` increments it holds `n % 256`.
`u8LoopMem f base mem n` is the memory after the first `n` iterations of the
body; `u8LoopExits n` is the value of the loop's exit test (the negated guard
`count < 256`) checked after `n` iterations. -/

/-- Memory after `n` iterations of the 8-bit-counter loop writing `f` at `base`. -/
def u8LoopMem (f : Nat → Nat) (base : Nat) (mem : Mem) : Nat → Mem
  | 0 => mem
  | n + 1 => Function.update (u8LoopMem f base mem n) (base + n % 256) (f (n % 256))

/-- Exit test of the 8-bit-counter loop after `n` iterations: the loop leaves
when `count < 256` fails, where `count` is the wrapped 8-bit counter `n % 256`. -/
def u8LoopExits (n : Nat) : Bool := ! decide (n % 256 < 256)

/-- `setup_low_nybble_to_low_nybble` after `n` loop iterations. -/
def setup_low_nybble_to_low_nybble (base : Nat) (mem : Mem) (n : Nat) : Mem :=
  u8LoopMem low_nybble_to_low_nybble_entry base mem n

/-- `setup_low_nybble_to_high_nybble` after `n` loop iterations. -/
def setup_low_nybble_to_high_nybble (base : Nat) (mem : Mem) (n : Nat) : Mem :=
  u8LoopMem low_nybble_to_high_nybble_entry base mem n

/-- `setup_high_nybble_to_high_nybble` after `n` loop iterations. -/
def setup_high_nybble_to_high_nybble (base : Nat) (mem : Mem) (n : Nat) : Mem :=
  u8LoopMem high_nybble_to_high_nybble_entry base mem n

/-- `setup_high_nybble_to_low_nybble` after `n` loop iterations. -/
def setup_high_nybble_to_low_nybble (base : Nat) (mem : Mem) (n : Nat) : Mem :=
  u8LoopMem high_nybble_to_low_nybble_entry base mem n

/-- The sum table of the first `setup_nybble_add_no_carryin` after `n` iterations. -/
def setup_nybble_add_no_carryin_sum (base : Nat) (mem : Mem) (n : Nat) : Mem :=
  u8LoopMem nybble_add_no_carryin_sum_entry base mem n

/-- The sum table of the first `setup_nybble_add_with_carryin` after `n` iterations. -/
def setup_nybble_add_with_carryin_sum (base : Nat) (mem : Mem) (n : Nat) : Mem :=
  u8LoopMem nybble_add_with_carryin_sum_entry base mem n

/-- The carry-out table of the second `setup_nybble_add_no_carryin` after `n` iterations. -/
def setup_nybble_add_no_carryin_carry (base : Nat) (mem : Mem) (n : Nat) : Mem :=
  u8LoopMem nybble_add_no_carryin_carry_entry base mem n

/-- The carry-out table of the second `setup_nybble_add_with_carryin` after `n` iterations. -/
def setup_nybble_add_with_carryin_carry (base : Nat) (mem : Mem) (n : Nat) : Mem :=
  u8LoopMem nybble_add_with_carryin_carry_entry base mem n

/-- `setup_nybble_compare_equal` after `n` loop iterations. -/
def setup_nybble_compare_equal (a b base : Nat) (mem : Mem) (n : Nat) : Mem :=
  u8LoopMem (nybble_compare_equal_entry a b) base mem n

/-- `build_lut8_add` is `while(1);` (marked unimplemented in the source).
Fuel-indexed run: `some ()` would mean the loop exited within the given fuel,
`none` means it was still looping when the fuel ran out. The loop guard is the
C constant `1`, i.e. the test `(1 : Nat) ≠ 0`. -/
def build_lut8_add_run : Nat → Option Unit
  | 0 => none
  | n + 1 => if (1 : Nat) ≠ 0 then build_lut8_add_run n else some ()

/-! ## The 16x256 nybble-combine table

`setup_low_nybble_low_nybble_to_byte` iterates three nested, terminating
`uint32_t` loops (high_nybble, low_nybble, dup_count, each 0..15) and performs
`base[(dup_count * 16) + (low_nybble * 1) + (high_nybble * 256)]
   = (uint8_t)((high_nybble << 4) | low_nybble)`.
We list the writes in exactly the source's iteration order and fold them over
memory. -/

/-- The (offset, value) writes of `setup_low_nybble_low_nybble_to_byte`,
in source iteration order. -/
def setup_llntb_writes : List (Nat × Nat) :=
  (List.range 16).flatMap (fun high_nybble =>
    (List.range 16).flatMap (fun low_nybble =>
      (List.range 16).map (fun dup_count =>
        ((dup_count * 16) + (low_nybble * 1) + (high_nybble * 256),
         (high_nybble <<< 4) ||| low_nybble))))

/-- `setup_low_nybble_low_nybble_to_byte`: performs all 4096 writes on `mem`. -/
def setup_low_nybble_low_nybble_to_byte (base : Nat) (mem : Mem) : Mem :=
  setup_llntb_writes.foldl (fun m w => Function.update m (base + w.1) w.2) mem

/-! ## Descriptors and the add8 chain builder -/

/-- Modelled from the spec: the `DmacDescriptor` record type is declared in
`dmainstrs.h`, which is not among the sources. Section 6 of the spec fixes the
field order: a control word (bit fields up to bit 13, so 16 bits), a transfer
count, a source address, a destination address and a next-descriptor address
(addresses are 32-bit on this hardware). A descriptor therefore occupies
16 bytes: BTCTRL at offset 0, BTCNT at 2, SRCADDR at 4, DSTADDR at 8,
DESCADDR at 12. Field values are modelled as `Nat`. -/
structure DmacDescriptor where
  BTCTRL : Nat
  BTCNT : Nat
  SRCADDR : Nat
  DSTADDR : Nat
  DESCADDR : Nat

/-- The three descriptors `build_add8_using_nybbles` actually fills in
(`descs[0]`, `descs[1]`, `descs[2]`; the remaining stages are only comments
in the source). -/
structure Add8Chain where
  d0 : DmacDescriptor
  d1 : DmacDescriptor
  d2 : DmacDescriptor

/-- Byte address of `descs[i]` when the descriptor array starts at `descBase`
(descriptors are 16 bytes each). -/
def descAddr (descBase i : Nat) : Nat := descBase + 16 * i

/-- Byte address of the `SRCADDR` field of `descs[i]`: `&descs[i].SRCADDR`.
The field sits 4 bytes into the 16-byte descriptor. -/
def srcaddrFieldAddr (descBase i : Nat) : Nat := descAddr descBase i + 4

/-- The `default_btctrl` control word of `build_add8_using_nybbles`:
`(0<<13)|(0<<12)|(0<<11)|(0<<10)|(0<<8)|(0<<3)|(0<<1)|(1<<0)`. -/
def default_btctrl : Nat :=
  (0 <<< 13) ||| (0 <<< 12) ||| (0 <<< 11) ||| (0 <<< 10) |||
  (0 <<< 8) ||| (0 <<< 3) ||| (0 <<< 1) ||| (1 <<< 0)

/-- Base address of the function-static buffer `static uint8_t scratch[4]` in
`build_add8_using_nybbles`. Being `static`, it is one program-wide buffer at a
single link-time address shared by every invocation; the concrete numeric
value chosen here is arbitrary but fixed. -/
def scratchBase : Nat := 0x20000000

/-- `build_add8_using_nybbles(descs, opa, opb, result)` from `dmainstrs.c`,
with `descs` at byte address `descBase`, the operand and result pointers as
byte addresses, and `mem` the memory the C body reads through (`*opa`,
`*opb` are `uint8_t` reads, hence mod 256).

Field-by-field translation of the source:
the body assigns `descs[0]` and `descs[1]` BTCTRL/BTCNT/SRCADDR/DSTADDR/DESCADDR
and `descs[2]` BTCTRL/BTCNT/DSTADDR/DESCADDR. `descs[2].SRCADDR` is never
assigned (the assignment is commented out), so it keeps whatever the caller's
descriptor memory already held there; that prior value is passed in as
`d2src_old`. `descs[1].DSTADDR = &descs[2].SRCADDR + 1` is pointer arithmetic
on a pointer to the 32-bit SRCADDR field, so it advances by 4 bytes, and
`descs[2].DESCADDR = &descs[2]` links descriptor 2 to itself. The `result`
parameter is never used by the body. -/
def build_add8_using_nybbles (descBase opa opb result : Nat) (mem : Mem)
    (d2src_old : Nat) : Add8Chain :=
  { d0 := { BTCTRL := default_btctrl
          , BTCNT := 1
          , SRCADDR := mem opa % 256
          , DSTADDR := srcaddrFieldAddr descBase 2
          , DESCADDR := descAddr descBase 1 }
  , d1 := { BTCTRL := default_btctrl
          , BTCNT := 1
          , SRCADDR := mem opb % 256
          , DSTADDR := srcaddrFieldAddr descBase 2 + 4
          , DESCADDR := descAddr descBase 2 }
  , d2 := { BTCTRL := default_btctrl
          , BTCNT := 2
          , SRCADDR := d2src_old
          , DSTADDR := scratchBase + 2
          , DESCADDR := descAddr descBase 2 } }

/-- Concrete memory for the end-to-end instance of the spec: operand byte
`0x3F` stored at address `0x200`, operand byte `0x01` at `0x201`, zero
elsewhere (the result byte at `0x202` reads 0). -/
def mem3f01 : Mem := fun a => if a = 0x200 then 0x3f else if a = 0x201 then 0x01 else 0

/-! ## Helper lemmas -/

/-- Looking a cell up after a fold of point writes: if every write in the list
is consistent with the index function `g`, and the cell either already agrees
with `g` or is written at least once, then the final cell value is `g i`. -/
theorem foldl_update_lookup (g : Nat → Nat) (base : Nat) :
    ∀ (l : List (Nat × Nat)) (m : Mem) (i : Nat),
      (∀ p ∈ l, p.2 = g p.1) →
      (m (base + i) = g i ∨ i ∈ l.map Prod.fst) →
      l.foldl (fun m w => Function.update m (base + w.1) w.2) m (base + i) = g i := by
  intro l
  induction l with
  | nil =>
    intro m i _ h
    simpa using h
  | cons a t ih =>
    intro m i hg h
    simp only [List.foldl_cons]
    apply ih
    · intro p hp
      exact hg p (List.mem_cons_of_mem a hp)
    · by_cases hia : i = a.1
      · left
        rw [hia, Function.update_same, hg a (List.mem_cons_self a t)]
      · have hne : base + i ≠ base + a.1 := by omega
        rw [Function.update_noteq hne]
        rcases h with h | h
        · exact Or.inl h
        · rw [List.map_cons] at h
          rcases List.mem_cons.mp h with h1 | h1
          · exact absurd h1 hia
          · exact Or.inr h1

/-- After `n` iterations of the 8-bit-counter loop, any cell with offset
`i < 256` that the loop has already reached (`i < n`) holds `f i`: iteration
`k` writes `f (k % 256)` at offset `k % 256`, so every revisit stores the
same value again. -/
theorem u8LoopMem_lookup (f : Nat → Nat) (base : Nat) (mem : Mem) :
    ∀ (n i : Nat), i < 256 → i < n → u8LoopMem f base mem n (base + i) = f i := by
  intro n
  induction n with
  | zero =>
    intro i _ hn
    exact absurd hn (Nat.not_lt_zero i)
  | succ n ih =>
    intro i h256 hn
    show Function.update (u8LoopMem f base mem n) (base + n % 256) (f (n % 256))
        (base + i) = f i
    by_cases hi : i = n % 256
    · rw [show base + i = base + n % 256 from by rw [hi], Function.update_same, hi]
    · have hne : base + i ≠ base + n % 256 := by omega
      rw [Function.update_noteq hne]
      exact ih i h256 (by omega)

set_option maxRecDepth 4096 in
/-- The four nybble-extraction loop bodies compute exactly the spec formulas. -/
theorem extraction_entries_eq : ∀ j, j < 256 →
    (low_nybble_to_low_nybble_entry j = j &&& 0x0f) ∧
    (low_nybble_to_high_nybble_entry j = (j <<< 4) &&& 0xf0) ∧
    (high_nybble_to_high_nybble_entry j = j &&& 0xf0) ∧
    (high_nybble_to_low_nybble_entry j = (j >>> 4) &&& 0x0f) := by
  decide

set_option maxRecDepth 4096 in
/-- The four nybble-add loop bodies compute exactly the spec formulas
(sum `(hi + lo + carry_in) & 0x0F` and carry-out `((hi + lo + carry_in) >> 4) & 0x01`
for `hi = (j >> 4) & 0xF`, `lo = j & 0xF`). -/
theorem add_entries_eq : ∀ j, j < 256 →
    (nybble_add_no_carryin_sum_entry j
        = (((j >>> 4) &&& 0x0f) + (j &&& 0x0f) + 0) &&& 0x0f) ∧
    (nybble_add_with_carryin_sum_entry j
        = (((j >>> 4) &&& 0x0f) + (j &&& 0x0f) + 1) &&& 0x0f) ∧
    (nybble_add_no_carryin_carry_entry j
        = ((((j >>> 4) &&& 0x0f) + (j &&& 0x0f) + 0) >>> 4) &&& 0x01) ∧
    (nybble_add_with_carryin_carry_entry j
        = ((((j >>> 4) &&& 0x0f) + (j &&& 0x0f) + 1) >>> 4) &&& 0x01) := by
  decide

/-- General lookup into the table built by `setup_low_nybble_low_nybble_to_byte`:
the entry at offset `hi * 256 + pad * 16 + lo` is `(hi <<< 4) ||| lo`, for every
value of the padding nybble `pad`. -/
theorem setup_llntb_lookup (base : Nat) (mem : Mem) (hi lo pad : Nat)
    (hhi : hi < 16) (hlo : lo < 16) (hpad : pad < 16) :
    setup_low_nybble_low_nybble_to_byte base mem (base + (hi * 256 + pad * 16 + lo))
      = (hi <<< 4) ||| lo := by
  have key := foldl_update_lookup (fun i => ((i / 256) <<< 4) ||| (i % 16)) base
      setup_llntb_writes mem (hi * 256 + pad * 16 + lo) ?_ ?_
  · rw [setup_low_nybble_low_nybble_to_byte, key]
    have h1 : (hi * 256 + pad * 16 + lo) / 256 = hi := by omega
    have h2 : (hi * 256 + pad * 16 + lo) % 16 = lo := by omega
    rw [h1, h2]
  · intro p hp
    rw [setup_llntb_writes] at hp
    rcases List.mem_flatMap.mp hp with ⟨high, hhigh, hp⟩
    rcases List.mem_flatMap.mp hp with ⟨low, hlow, hp⟩
    rcases List.mem_map.mp hp with ⟨dup, hdup, hp⟩
    have hhigh16 : high < 16 := List.mem_range.mp hhigh
    have hlow16 : low < 16 := List.mem_range.mp hlow
    have hdup16 : dup < 16 := List.mem_range.mp hdup
    rw [← hp]
    show (high <<< 4) ||| low
        = (((dup * 16 + low * 1 + high * 256) / 256) <<< 4)
            ||| ((dup * 16 + low * 1 + high * 256) % 16)
    have h1 : (dup * 16 + low * 1 + high * 256) / 256 = high := by omega
    have h2 : (dup * 16 + low * 1 + high * 256) % 16 = low := by omega
    rw [h1, h2]
  · right
    apply List.mem_map.mpr
    refine ⟨(pad * 16 + lo * 1 + hi * 256, (hi <<< 4) ||| lo), ?_, by omega⟩
    rw [setup_llntb_writes]
    apply List.mem_flatMap.mpr
    refine ⟨hi, List.mem_range.mpr hhi, ?_⟩
    apply List.mem_flatMap.mpr
    refine ⟨lo, List.mem_range.mpr hlo, ?_⟩
    exact List.mem_map.mpr ⟨pad, List.mem_range.mpr hpad, rfl⟩

/-! ## Claim theorems -/

/-- C3: the claim says every table-building operation and the chain builder
runs to completion. In fact none of the 1x256 builders can ever leave its
loop: the exit test of `for (uint8_t count = 0; count < 256; count++)` is
false for every iteration count, because the wrapped 8-bit counter is always
below 256; and `build_lut8_add` is `while(1);`, which is still looping after
any amount of fuel. -/
theorem table_builders_never_return :
    (∀ n : Nat, u8LoopExits n = false) ∧
    (∀ fuel : Nat, build_lut8_add_run fuel = none) := by
  constructor
  · intro n
    have h : n % 256 < 256 := Nat.mod_lt n (by norm_num)
    simp [u8LoopExits, h]
  · intro fuel
    induction fuel with
    | zero => rfl
    | succ k ih => simp [build_lut8_add_run, ih]

/-- C6: after the four 256-entry nybble-extraction builders have performed at
least one full pass over the table (any iteration count `n ≥ 256`; the loops
in the source never exit, which claim C3 covers), every entry `i` holds the
claimed value: `i & 0x0F`, `(i << 4) & 0xF0`, `i & 0xF0` and `(i >> 4) & 0x0F`
respectively. -/
theorem extraction_tables_correct (base : Nat) (mem : Mem) (n i : Nat)
    (hn : 256 ≤ n) (hi : i < 256) :
    (setup_low_nybble_to_low_nybble base mem n (base + i) = i &&& 0x0f) ∧
    (setup_low_nybble_to_high_nybble base mem n (base + i) = (i <<< 4) &&& 0xf0) ∧
    (setup_high_nybble_to_high_nybble base mem n (base + i) = i &&& 0xf0) ∧
    (setup_high_nybble_to_low_nybble base mem n (base + i) = (i >>> 4) &&& 0x0f) := by
  obtain ⟨e1, e2, e3, e4⟩ := extraction_entries_eq i hi
  refine ⟨?_, ?_, ?_, ?_⟩
  · rw [setup_low_nybble_to_low_nybble,
      u8LoopMem_lookup low_nybble_to_low_nybble_entry base mem n i hi (by omega), e1]
  · rw [setup_low_nybble_to_high_nybble,
      u8LoopMem_lookup low_nybble_to_high_nybble_entry base mem n i hi (by omega), e2]
  · rw [setup_high_nybble_to_high_nybble,
      u8LoopMem_lookup high_nybble_to_high_nybble_entry base mem n i hi (by omega), e3]
  · rw [setup_high_nybble_to_low_nybble,
      u8LoopMem_lookup high_nybble_to_low_nybble_entry base mem n i hi (by omega), e4]

/-- C6 witness: the four extraction tables evaluated at entry 5 after one
full pass. -/
theorem extraction_tables_correct_witness :
    256 ≤ 256 ∧ (5 : Nat) < 256 ∧
    ((setup_low_nybble_to_low_nybble 0 zeroMem 256 (0 + 5) = 5 &&& 0x0f) ∧
     (setup_low_nybble_to_high_nybble 0 zeroMem 256 (0 + 5) = ((5 : Nat) <<< 4) &&& 0xf0) ∧
     (setup_high_nybble_to_high_nybble 0 zeroMem 256 (0 + 5) = 5 &&& 0xf0) ∧
     (setup_high_nybble_to_low_nybble 0 zeroMem 256 (0 + 5) = ((5 : Nat) >>> 4) &&& 0x0f)) :=
  ⟨by norm_num, by norm_num,
   extraction_tables_correct 0 zeroMem 256 5 (by norm_num) (by norm_num)⟩

/-- C4: after a full pass of each loop (any `n ≥ 256`), the sum tables hold
`(hi + lo + carry_in) & 0x0F` and the carry-out tables hold
`((hi + lo + carry_in) >> 4) & 0x01`, for `hi = (i >> 4) & 0xF`,
`lo = i & 0xF`, carry_in 0 and 1; and the four tables are pairwise distinct
(witnessed by entries where they differ). -/
theorem nybble_add_tables_correct (base : Nat) (mem : Mem) (n i : Nat)
    (hn : 256 ≤ n) (hi : i < 256) :
    ((setup_nybble_add_no_carryin_sum base mem n (base + i)
        = (((i >>> 4) &&& 0x0f) + (i &&& 0x0f) + 0) &&& 0x0f) ∧
     (setup_nybble_add_with_carryin_sum base mem n (base + i)
        = (((i >>> 4) &&& 0x0f) + (i &&& 0x0f) + 1) &&& 0x0f) ∧
     (setup_nybble_add_no_carryin_carry base mem n (base + i)
        = ((((i >>> 4) &&& 0x0f) + (i &&& 0x0f) + 0) >>> 4) &&& 0x01) ∧
     (setup_nybble_add_with_carryin_carry base mem n (base + i)
        = ((((i >>> 4) &&& 0x0f) + (i &&& 0x0f) + 1) >>> 4) &&& 0x01)) ∧
    ((nybble_add_no_carryin_sum_entry 0 ≠ nybble_add_with_carryin_sum_entry 0) ∧
     (nybble_add_no_carryin_sum_entry 1 ≠ nybble_add_no_carryin_carry_entry 1) ∧
     (nybble_add_no_carryin_sum_entry 1 ≠ nybble_add_with_carryin_carry_entry 1) ∧
     (nybble_add_with_carryin_sum_entry 0 ≠ nybble_add_no_carryin_carry_entry 0) ∧
     (nybble_add_with_carryin_sum_entry 0 ≠ nybble_add_with_carryin_carry_entry 0) ∧
     (nybble_add_no_carryin_carry_entry 0x0f ≠ nybble_add_with_carryin_carry_entry 0x0f)) := by
  obtain ⟨e1, e2, e3, e4⟩ := add_entries_eq i hi
  refine ⟨⟨?_, ?_, ?_, ?_⟩, by decide, by decide, by decide, by decide, by decide, by decide⟩
  · rw [setup_nybble_add_no_carryin_sum,
      u8LoopMem_lookup nybble_add_no_carryin_sum_entry base mem n i hi (by omega), e1]
  · rw [setup_nybble_add_with_carryin_sum,
      u8LoopMem_lookup nybble_add_with_carryin_sum_entry base mem n i hi (by omega), e2]
  · rw [setup_nybble_add_no_carryin_carry,
      u8LoopMem_lookup nybble_add_no_carryin_carry_entry base mem n i hi (by omega), e3]
  · rw [setup_nybble_add_with_carryin_carry,
      u8LoopMem_lookup nybble_add_with_carryin_carry_entry base mem n i hi (by omega), e4]

/-- C4 witness: the four add tables evaluated at entry 0x3f (hi 3, lo 15)
after one full pass, plus the distinctness facts. -/
theorem nybble_add_tables_correct_witness :
    256 ≤ 256 ∧ (0x3f : Nat) < 256 ∧
    (((setup_nybble_add_no_carryin_sum 0 zeroMem 256 (0 + 0x3f)
        = ((((0x3f : Nat) >>> 4) &&& 0x0f) + ((0x3f : Nat) &&& 0x0f) + 0) &&& 0x0f) ∧
      (setup_nybble_add_with_carryin_sum 0 zeroMem 256 (0 + 0x3f)
        = ((((0x3f : Nat) >>> 4) &&& 0x0f) + ((0x3f : Nat) &&& 0x0f) + 1) &&& 0x0f) ∧
      (setup_nybble_add_no_carryin_carry 0 zeroMem 256 (0 + 0x3f)
        = (((((0x3f : Nat) >>> 4) &&& 0x0f) + ((0x3f : Nat) &&& 0x0f) + 0) >>> 4) &&& 0x01) ∧
      (setup_nybble_add_with_carryin_carry 0 zeroMem 256 (0 + 0x3f)
        = (((((0x3f : Nat) >>> 4) &&& 0x0f) + ((0x3f : Nat) &&& 0x0f) + 1) >>> 4) &&& 0x01)) ∧
     ((nybble_add_no_carryin_sum_entry 0 ≠ nybble_add_with_carryin_sum_entry 0) ∧
      (nybble_add_no_carryin_sum_entry 1 ≠ nybble_add_no_carryin_carry_entry 1) ∧
      (nybble_add_no_carryin_sum_entry 1 ≠ nybble_add_with_carryin_carry_entry 1) ∧
      (nybble_add_with_carryin_sum_entry 0 ≠ nybble_add_no_carryin_carry_entry 0) ∧
      (nybble_add_with_carryin_sum_entry 0 ≠ nybble_add_with_carryin_carry_entry 0) ∧
      (nybble_add_no_carryin_carry_entry 0x0f ≠ nybble_add_with_carryin_carry_entry 0x0f))) :=
  ⟨by norm_num, by norm_num,
   nybble_add_tables_correct 0 zeroMem 256 0x3f (by norm_num) (by norm_num)⟩

/-- C5: every entry of the 16x256 table built by
`setup_low_nybble_low_nybble_to_byte` at offset `hi * 256 + pad * 16 + lo`
equals `(hi << 4) | lo`, for every value of the don't-care padding nybble
`pad` of the low operand. -/
theorem nybble_low_combine_correct (base : Nat) (mem : Mem) (hi lo pad : Nat)
    (hhi : hi < 16) (hlo : lo < 16) (hpad : pad < 16) :
    setup_low_nybble_low_nybble_to_byte base mem (base + (hi * 256 + pad * 16 + lo))
      = (hi <<< 4) ||| lo :=
  setup_llntb_lookup base mem hi lo pad hhi hlo hpad

/-- C5 witness: entry at hi 3, pad 5, lo 7 is `0x37`. -/
theorem nybble_low_combine_correct_witness :
    (3 : Nat) < 16 ∧ (7 : Nat) < 16 ∧ (5 : Nat) < 16 ∧
    setup_low_nybble_low_nybble_to_byte 0x1000 zeroMem
        (0x1000 + (3 * 256 + 5 * 16 + 7)) = ((3 : Nat) <<< 4) ||| 7 :=
  ⟨by norm_num, by norm_num, by norm_num,
   nybble_low_combine_correct 0x1000 zeroMem 3 7 5 (by norm_num) (by norm_num) (by norm_num)⟩

/-- C8 counterexample: `setup_low_nybble_low_nybble_to_byte` takes only a raw
base pointer, has no size input and no failure path, and unconditionally
writes its full 4096-entry range: starting from all-zero memory it stores the
nonzero value 255 at byte offset 4095 — past the end of any destination
buffer smaller than 4096 bytes — instead of aborting with a size-mismatch
condition and leaving the table unpopulated. -/
theorem setup_llntb_no_abort_counterexample :
    setup_low_nybble_low_nybble_to_byte 0 zeroMem 4095 = 255 ∧
    zeroMem 4095 = 0 ∧ (255 : Nat) ≠ 0 := by
  refine ⟨?_, rfl, by norm_num⟩
  have key := setup_llntb_lookup 0 zeroMem 15 15 15 (by norm_num) (by norm_num) (by norm_num)
  have e1 : (0 : Nat) + (15 * 256 + 15 * 16 + 15) = 4095 := by norm_num
  have e2 : ((15 : Nat) <<< 4) ||| 15 = 255 := by decide
  rw [e1, e2] at key
  exact key

/-- C8 amended: the builders perform no size validation at all; for every
initial memory, `setup_low_nybble_low_nybble_to_byte` unconditionally writes
all 4096 entries of its index range (entry `i` receiving
`((i / 256) << 4) | (i % 16)`), so a destination buffer smaller than the
table is written past rather than detected. -/
theorem setup_llntb_writes_all_entries (base : Nat) (mem : Mem) (i : Nat)
    (h : i < 4096) :
    setup_low_nybble_low_nybble_to_byte base mem (base + i)
      = ((i / 256) <<< 4) ||| (i % 16) := by
  have key := setup_llntb_lookup base mem (i / 256) (i % 16) (i / 16 % 16)
      (by omega) (by omega) (by omega)
  have hi_eq : i / 256 * 256 + i / 16 % 16 * 16 + i % 16 = i := by omega
  rw [hi_eq] at key
  exact key

/-- C8 amended witness: the last entry (offset 4095) is always written. -/
theorem setup_llntb_writes_all_entries_witness :
    (4095 : Nat) < 4096 ∧
    setup_low_nybble_low_nybble_to_byte 0 zeroMem (0 + 4095)
      = (((4095 : Nat) / 256) <<< 4) ||| ((4095 : Nat) % 16) :=
  ⟨by norm_num, setup_llntb_writes_all_entries 0 zeroMem 4095 (by norm_num)⟩

/-- C1: the emitted chain cannot compute `result = (opa + opb) mod 256`. The
body of `build_add8_using_nybbles` never uses its `result` parameter — the
emitted chain is literally identical for every result location — and on the
spec's own test vector (operands 0x3F and 0x01 at 0x200/0x201, result at
0x202, descriptors at 0x100) none of the three emitted descriptors targets
the result byte, while the last descriptor links to itself instead of
terminating. -/
theorem build_add8_chain_incomplete :
    (∀ descBase opa opb r1 r2 mem old,
        build_add8_using_nybbles descBase opa opb r1 mem old
          = build_add8_using_nybbles descBase opa opb r2 mem old) ∧
    ((build_add8_using_nybbles 0x100 0x200 0x201 0x202 mem3f01 0).d0.DSTADDR ≠ 0x202) ∧
    ((build_add8_using_nybbles 0x100 0x200 0x201 0x202 mem3f01 0).d1.DSTADDR ≠ 0x202) ∧
    ((build_add8_using_nybbles 0x100 0x200 0x201 0x202 mem3f01 0).d2.DSTADDR ≠ 0x202) ∧
    ((build_add8_using_nybbles 0x100 0x200 0x201 0x202 mem3f01 0).d2.DESCADDR
        = descAddr 0x100 2) :=
  ⟨fun _ _ _ _ _ _ _ => rfl, by decide, by decide, by decide, rfl⟩

/-- C2: the chain is not null-terminated. Descriptors 0 and 1 do link to the
immediately following descriptor, but the terminal descriptor's link is set
to the address of descriptor 2 itself — a nonzero self-link, so the chain
cycles on its last stage instead of ending with a null link. -/
theorem build_add8_chain_links (descBase opa opb result : Nat) (mem : Mem) (old : Nat) :
    ((build_add8_using_nybbles descBase opa opb result mem old).d0.DESCADDR
        = descAddr descBase 1) ∧
    ((build_add8_using_nybbles descBase opa opb result mem old).d1.DESCADDR
        = descAddr descBase 2) ∧
    ((build_add8_using_nybbles descBase opa opb result mem old).d2.DESCADDR
        = descAddr descBase 2) ∧
    ((build_add8_using_nybbles descBase opa opb result mem old).d2.DESCADDR ≠ 0) := by
  refine ⟨rfl, rfl, rfl, ?_⟩
  show descAddr descBase 2 ≠ 0
  rw [descAddr]
  omega

/-- C7 counterexample: two chains built by independent invocations with
entirely different descriptor arrays, operands and result locations still
write their intermediate value to the same scratch byte — the single
function-static `scratch` buffer — so scratch memory is shared between chain
instances. -/
theorem build_add8_scratch_shared_counterexample :
    (build_add8_using_nybbles 0x100 0x200 0x201 0x202 zeroMem 0).d2.DSTADDR
      = (build_add8_using_nybbles 0x400 0x500 0x501 0x502 zeroMem 7).d2.DSTADDR :=
  rfl

/-- C7 amended: `build_add8_using_nybbles` takes no scratch argument; every
invocation's descriptor 2 writes to `&scratch[2]` inside the one
program-wide static scratch buffer, independent of all arguments. -/
theorem build_add8_static_scratch (descBase opa opb result : Nat) (mem : Mem) (old : Nat) :
    (build_add8_using_nybbles descBase opa opb result mem old).d2.DSTADDR
      = scratchBase + 2 :=
  rfl

/-- C9: descriptor 0's destination is indeed the address of descriptor 2's
SRCADDR field, but descriptor 1's destination is that address plus 4 — the C
expression `&descs[2].SRCADDR + 1` advances a pointer to the 32-bit field by
one field width — and in particular it is not the adjacent byte at that
address plus 1, so the two extracted nybbles do not land in adjacent bytes
of the SRCADDR field. -/
theorem build_add8_index_byte_placement (descBase opa opb result : Nat) (mem : Mem) (old : Nat) :
    ((build_add8_using_nybbles descBase opa opb result mem old).d0.DSTADDR
        = srcaddrFieldAddr descBase 2) ∧
    ((build_add8_using_nybbles descBase opa opb result mem old).d1.DSTADDR
        = srcaddrFieldAddr descBase 2 + 4) ∧
    ((build_add8_using_nybbles descBase opa opb result mem old).d1.DSTADDR
        ≠ srcaddrFieldAddr descBase 2 + 1) := by
  refine ⟨rfl, rfl, ?_⟩
  show srcaddrFieldAddr descBase 2 + 4 ≠ srcaddrFieldAddr descBase 2 + 1
  omega

/-- C10: the SRCADDR fields of descriptors 0 and 1 receive the zero-extended
byte values stored at the operand locations (`*opa`, `*opb`), not the operand
addresses; on the concrete instance with byte 0x3F at address 0x200 and byte
0x01 at address 0x201, the assigned source addresses are 0x3F and 0x01,
which differ from the operand addresses. -/
theorem build_add8_srcaddr_operand_values :
    (∀ descBase opa opb result mem old,
        ((build_add8_using_nybbles descBase opa opb result mem old).d0.SRCADDR
            = mem opa % 256) ∧
        ((build_add8_using_nybbles descBase opa opb result mem old).d1.SRCADDR
            = mem opb % 256)) ∧
    ((build_add8_using_nybbles 0x100 0x200 0x201 0x202 mem3f01 0).d0.SRCADDR = 0x3f) ∧
    ((0x3f : Nat) ≠ 0x200) ∧
    ((build_add8_using_nybbles 0x100 0x200 0x201 0x202 mem3f01 0).d1.SRCADDR = 0x01) ∧
    ((0x01 : Nat) ≠ 0x201) :=
  ⟨fun _ _ _ _ _ _ => ⟨rfl, rfl⟩, by decide, by norm_num, by decide, by norm_num⟩
